import Mathlib

/-!
Shallow embedding of `actiwatch/analysis.py` (the aggregation engine of the
actiwatch-class repository) and verification of the frozen claims about it.

The input DataFrame is modelled as a `List Epoch`, one element per row, in row
order.  pandas operations are translated operation by operation:

* `pd.pivot_table(..., aggfunc="count", fill_value=0)` with index
  `[Split_Day, Interval]` and columns `[Sleep_Acti]`: the row index is the
  sorted list of observed `(Split_Day, Interval)` pairs, the columns are the
  sorted list of observed `Sleep_Acti` values, and a cell is the number of
  matching rows (0 for an observed-index/observed-column pair with no rows).
  A `Sleep_Acti` value that occurs nowhere in the table produces NO column,
  so a later `.loc[:, "Wake"]` on such a pivot raises `KeyError`.
* `Series.unique()` keeps first occurrences in row order (`uniqueList`).
* `sorted(...)` / pivot index sorting: insertion sort (`List.insertionSort`).
* Python exceptions (`KeyError`, `IndexError`, `AttributeError`,
  `NotImplementedError`) and `return None` are modelled by `PyResult`.
* Float arithmetic is modelled with `ℚ`; pandas NaN (and ±inf) results inside
  a column are modelled with `Option` (`none` = NaN/absent).
-/

namespace Actiwatch

/-- The `Interval` phase labels (closed set, per the data model). -/
inductive Interval where
  | Active
  | Rest
  | Falling_Asleep
  | Waking_Up
deriving DecidableEq, Repr

/-- String sort order of the interval labels, used by the pandas pivot index:
"Active" < "Falling_Asleep" < "Rest" < "Waking_Up". -/
def intervalOrd : Interval → Nat
  | .Active => 0
  | .Falling_Asleep => 1
  | .Rest => 2
  | .Waking_Up => 3

/-- The binary sleep/wake classification values. -/
inductive SleepActi where
  | Sleep
  | Wake
deriving DecidableEq, Repr

/-- One row of the input table.  `dateTime` is minutes since a reference
instant; `hour` is the `Hour` column (0–23, derived upstream). -/
structure Epoch where
  watch_ID : Nat
  dateTime : Nat
  hour : Nat
  split_Day : Int
  interval : Interval
  sleep_Acti : SleepActi
  activity : Int
  light : Int
deriving DecidableEq, Repr

/-- A count (Python `int`) used in float arithmetic.  Written with `mkRat`
rather than the `ℚ` coercion so that concrete runs reduce inside the kernel. -/
def ratOfNat (n : Nat) : ℚ := mkRat (Int.ofNat n) 1

/-- An integer (Python `int`) used in float arithmetic. -/
def ratOfInt (i : Int) : ℚ := mkRat i 1

/-- Python float division, modelled exactly: `a / b` as a rational.  Written
with `Rat.divInt` (rather than `ℚ`'s `Div`, whose `Rat.inv` is marked
irreducible) so that concrete runs reduce in the kernel; it agrees with
`a / b` everywhere — see `ratDiv_eq_div`. -/
def ratDiv (a b : ℚ) : ℚ :=
  Rat.divInt (a.num * Int.ofNat b.den) (Int.ofNat a.den * b.num)

/-- Python float multiplication, modelled exactly (reducible form of `*`). -/
def ratMul (a b : ℚ) : ℚ := mkRat (a.num * b.num) (a.den * b.den)

/-- Python float addition, modelled exactly (reducible form of `+`). -/
def ratAdd (a b : ℚ) : ℚ := mkRat (a.num * b.den + b.num * a.den) (a.den * b.den)

theorem ratMul_eq_mul (a b : ℚ) : ratMul a b = a * b := by
  rw [ratMul, Rat.mul_def, Rat.normalize_eq_mkRat]

theorem ratAdd_eq_add (a b : ℚ) : ratAdd a b = a + b :=
  (Rat.add_def' a b).symm

theorem ratDiv_eq_div (a b : ℚ) : ratDiv a b = a / b := by
  rw [ratDiv, Rat.divInt_eq_div]
  rcases eq_or_ne b 0 with rfl | hb
  · simp
  · have hbn : (b.num : ℚ) ≠ 0 := by
      exact_mod_cast Rat.num_ne_zero.mpr hb
    have had : ((a.den : ℚ)) ≠ 0 := by
      exact_mod_cast a.den_nz
    have hbd : ((b.den : ℚ)) ≠ 0 := by
      exact_mod_cast b.den_nz
    conv_rhs => rw [← Rat.num_div_den a, ← Rat.num_div_den b]
    push_cast
    field_simp



/-- Outcome of calling one of the Python reducers: a returned table,
`return None`, or an uncaught exception (tagged by exception class name). -/
inductive PyResult (α : Type) where
  | ok : α → PyResult α
  | noneResult : PyResult α
  | error : String → PyResult α
deriving DecidableEq, Repr

/-- Helper for `uniqueList`: drop the values already in `seen`. -/
def uniqueAux {α : Type} [DecidableEq α] (seen : List α) : List α → List α
  | [] => []
  | a :: rest =>
      if a ∈ seen then uniqueAux seen rest else a :: uniqueAux (a :: seen) rest

/-- `Series.unique()`: distinct values in order of first occurrence. -/
def uniqueList {α : Type} [DecidableEq α] (l : List α) : List α :=
  uniqueAux [] l

theorem mem_uniqueAux {α : Type} [DecidableEq α] {a : α} :
    ∀ {l seen : List α}, a ∈ uniqueAux seen l ↔ a ∈ l ∧ a ∉ seen
  | [], seen => by simp [uniqueAux]
  | b :: rest, seen => by
    simp only [uniqueAux]
    by_cases hb : b ∈ seen
    · rw [if_pos hb, mem_uniqueAux]
      constructor
      · rintro ⟨h1, h2⟩
        exact ⟨List.mem_cons_of_mem _ h1, h2⟩
      · rintro ⟨h1, h2⟩
        rcases List.mem_cons.mp h1 with rfl | h1
        · exact absurd hb h2
        · exact ⟨h1, h2⟩
    · rw [if_neg hb]
      simp only [List.mem_cons, mem_uniqueAux]
      constructor
      · rintro (rfl | ⟨h1, h2⟩)
        · exact ⟨Or.inl rfl, hb⟩
        · exact ⟨Or.inr h1, fun hs => h2 (Or.inr hs)⟩
      · rintro ⟨rfl | h1, h2⟩
        · exact Or.inl rfl
        · by_cases hab : a = b
          · exact Or.inl hab
          · exact Or.inr ⟨h1, by simp [hab, h2]⟩

theorem mem_uniqueList {α : Type} [DecidableEq α] {a : α} {l : List α} :
    a ∈ uniqueList l ↔ a ∈ l := by
  rw [uniqueList, mem_uniqueAux]
  simp

theorem nodup_uniqueAux {α : Type} [DecidableEq α] :
    ∀ (l seen : List α), (uniqueAux seen l).Nodup
  | [], _ => List.nodup_nil
  | b :: rest, seen => by
    simp only [uniqueAux]
    by_cases hb : b ∈ seen
    · rw [if_pos hb]
      exact nodup_uniqueAux rest seen
    · rw [if_neg hb]
      refine List.nodup_cons.mpr ⟨fun hmem => ?_, nodup_uniqueAux rest _⟩
      exact (mem_uniqueAux.mp hmem).2 (List.mem_cons_self _ _)

theorem nodup_uniqueList {α : Type} [DecidableEq α] (l : List α) :
    (uniqueList l).Nodup :=
  nodup_uniqueAux l []

/-- Lexicographic order on the `(Split_Day, Interval)` pivot index. -/
def pairLe (p q : Int × Interval) : Prop :=
  p.1 < q.1 ∨ (p.1 = q.1 ∧ intervalOrd p.2 ≤ intervalOrd q.2)

instance : DecidableRel pairLe := fun p q => by
  unfold pairLe; infer_instance

instance : IsTotal (Int × Interval) pairLe where
  total p q := by
    rcases lt_trichotomy p.1 q.1 with h | h | h
    · exact Or.inl (Or.inl h)
    · rcases Nat.le_total (intervalOrd p.2) (intervalOrd q.2) with h2 | h2
      · exact Or.inl (Or.inr ⟨h, h2⟩)
      · exact Or.inr (Or.inr ⟨h.symm, h2⟩)
    · exact Or.inr (Or.inl h)

instance : IsTrans (Int × Interval) pairLe where
  trans p q r hpq hqr := by
    rcases hpq with h1 | ⟨e1, l1⟩
    · rcases hqr with h2 | ⟨e2, _⟩
      · exact Or.inl (h1.trans h2)
      · exact Or.inl (e2 ▸ h1)
    · rcases hqr with h2 | ⟨e2, l2⟩
      · exact Or.inl (e1 ▸ h2)
      · exact Or.inr ⟨e1.trans e2, l1.trans l2⟩

/-- The sorted row index of the count pivot: observed `(Split_Day, Interval)`
pairs, sorted lexicographically (as `pd.pivot_table` sorts its index). -/
def pivotIndex (df : List Epoch) : List (Int × Interval) :=
  List.insertionSort pairLe (uniqueList (df.map (fun e => (e.split_Day, e.interval))))

/-- One cell of the count pivot: number of epochs with the given day, phase
and classification (`aggfunc="count"` on the non-null `watch_ID` column). -/
def cellCount (df : List Epoch) (d : Int) (i : Interval) (s : SleepActi) : Nat :=
  (df.filter (fun e =>
    decide (e.split_Day = d ∧ e.interval = i ∧ e.sleep_Acti = s))).length

/-- The observed `Sleep_Acti` values: exactly these become pivot columns. -/
def presentActis (df : List Epoch) : List SleepActi :=
  uniqueList (df.map (fun e => e.sleep_Acti))

/-- `df["watch_ID"].unique().tolist()[0]`: the first distinct watch_ID in row
order, or an IndexError (`none` head) on an empty table. -/
def firstWatchID (df : List Epoch) : Option Nat :=
  (uniqueList (df.map (fun e => e.watch_ID))).head?

/-- One output row of `sleep_metrics` (columns of the returned frame:
Split_Day, Interval — constantly "Rest" after the filter —, Sleep, Wake,
TST_Min, WASO_Min, SE, watch_ID). -/
structure MetricsRow where
  split_Day : Int
  sleep : Nat
  wake : Nat
  tst_Min : ℚ
  waso_Min : ℚ
  se : ℚ
  watch_ID : Nat
deriving DecidableEq, Repr

/-- The row list `sleep_metrics` returns on success: the `Rest` rows of the
count pivot with the derived metric columns, stamped with watch_ID `w`. -/
def metricsRows (df : List Epoch) (rec_freq : ℚ) (w : Nat) : List MetricsRow :=
  ((pivotIndex df).filter (fun p => decide (p.2 = Interval.Rest))).map (fun p =>
    let s := cellCount df p.1 p.2 SleepActi.Sleep
    let k := cellCount df p.1 p.2 SleepActi.Wake
    { split_Day := p.1
      sleep := s
      wake := k
      tst_Min := ratMul (ratOfNat s) (ratDiv rec_freq 60)
      waso_Min := ratMul (ratOfNat k) (ratDiv rec_freq 60)
      se := ratMul 100 (ratDiv (ratOfNat s) (ratAdd (ratOfNat s) (ratOfNat k)))
      watch_ID := w })

/-- `sleep_metrics(df, rec_freq)`.  The pivot is taken over the whole table;
rows are restricted to the `Rest` phase; then `TST_Min`, `WASO_Min`, `SE` are
computed from the `Sleep` and `Wake` count columns.  Reading the `Sleep`
(resp. `Wake`) column raises `KeyError` when that classification occurs
nowhere in the table, because the pivot then has no such column. -/
def sleep_metrics (df : List Epoch) (rec_freq : ℚ) : PyResult (List MetricsRow) :=
  if SleepActi.Sleep ∈ presentActis df then
    if SleepActi.Wake ∈ presentActis df then
      match firstWatchID df with
      | none => .error "IndexError"
      | some w => .ok (metricsRows df rec_freq w)
    else .error "KeyError"
  else .error "KeyError"

/-- The observed `Interval` values of the table (`df["Interval"].unique()`;
also exactly the columns of the per-interval pivots in `bedtime`). -/
def presentIntervals (df : List Epoch) : List Interval :=
  uniqueList (df.map (fun e => e.interval))

/-- One output row of `sleep_latency`.  The two latency columns only exist in
the pandas pivot when the corresponding phase occurs somewhere in the table;
a missing column is `none` on every row, while `some q` is a real cell value
(0 after `fillna(0)` when that day lacks the phase). -/
structure LatencyRow where
  split_Day : Int
  sleep_Latency_Min : Option ℚ
  wake_Latency_Min : Option ℚ
  watch_ID : Nat
deriving DecidableEq, Repr

/-- Total epoch count of a `(Split_Day, Interval)` pivot row: the `Sleep`
column plus the `Wake` column (`latency_filter["Sleep"] + ["Wake"]`). -/
def latencyVal (df : List Epoch) (d : Int) (i : Interval) (rec_freq : ℚ) : ℚ :=
  ratMul (ratOfNat (cellCount df d i SleepActi.Sleep + cellCount df d i SleepActi.Wake))
    (ratDiv rec_freq 60)

/-- Sorted distinct `Split_Day` values of a list of pivot-index pairs. -/
def sortedDaysOf (pairs : List (Int × Interval)) : List Int :=
  List.insertionSort (fun a b : Int => a ≤ b) (uniqueList (pairs.map (fun p => p.1)))

/-- The `Falling_Asleep`/`Waking_Up` rows of the count pivot index
(`latency_filter`'s row index). -/
def latPairs (df : List Epoch) : List (Int × Interval) :=
  (pivotIndex df).filter (fun p =>
    decide (p.2 = Interval.Falling_Asleep ∨ p.2 = Interval.Waking_Up))

/-- The row list `sleep_latency` returns on success (before the watch stamp
`w` is filled in): one row per `Split_Day` appearing in `latPairs`, a column
per phase present among them, `fillna(0)` for an existing column's empty
cell. -/
def latencyRows (df : List Epoch) (rec_freq : ℚ) (w : Nat) : List LatencyRow :=
  let lat := latPairs df
  let hasFAcol := lat.any (fun p => decide (p.2 = Interval.Falling_Asleep))
  let hasWUcol := lat.any (fun p => decide (p.2 = Interval.Waking_Up))
  (sortedDaysOf lat).map (fun d =>
    { split_Day := d
      sleep_Latency_Min :=
        if hasFAcol then
          some (if (d, Interval.Falling_Asleep) ∈ lat then
                  latencyVal df d Interval.Falling_Asleep rec_freq
                else 0)
        else none
      wake_Latency_Min :=
        if hasWUcol then
          some (if (d, Interval.Waking_Up) ∈ lat then
                  latencyVal df d Interval.Waking_Up rec_freq
                else 0)
        else none
      watch_ID := w })

/-- `sleep_latency(df, rec_freq)`.  Returns `None` when no `Falling_Asleep`
epoch exists.  Otherwise builds the count pivot (reading its `Sleep` and
`Wake` columns — `KeyError` when a classification occurs nowhere), keeps the
`Falling_Asleep`/`Waking_Up` rows, converts counts to minutes, and re-pivots
to one row per `Split_Day` with one column per phase present, `fillna(0)`. -/
def sleep_latency (df : List Epoch) (rec_freq : ℚ) : PyResult (List LatencyRow) :=
  if Interval.Falling_Asleep ∈ presentIntervals df then
    if SleepActi.Sleep ∈ presentActis df then
      if SleepActi.Wake ∈ presentActis df then
        match firstWatchID df with
        | none => .error "IndexError"
        | some w => .ok (latencyRows df rec_freq w)
      else .error "KeyError"
    else .error "KeyError"
  else .noneResult

/-- Hour-of-day of a timestamp in minutes (`Timestamp.hour`). -/
def hourOf (t : Nat) : Nat := (t % 1440) / 60

/-- Minute-of-hour of a timestamp in minutes (`Timestamp.minute`). -/
def minuteOf (t : Nat) : Nat := t % 60

/-- Minimum of a list of naturals (callers guarantee nonemptiness). -/
def minNat : List Nat → Nat
  | [] => 0
  | a :: rest => rest.foldl Nat.min a

/-- Earliest `DateTime` among the epochs of one `(Split_Day, Interval)`
group (`groupby(["Split_Day", "Interval"]).min()` on `DateTime`). -/
def minDateTime (df : List Epoch) (d : Int) (i : Interval) : Nat :=
  minNat ((df.filter (fun e => decide (e.split_Day = d ∧ e.interval = i))).map
    (fun e => e.dateTime))

/-- Sorted distinct `Split_Day` values of the whole table. -/
def sortedDays (df : List Epoch) : List Int :=
  List.insertionSort (fun a b : Int => a ≤ b) (uniqueList (df.map (fun e => e.split_Day)))

/-- One output row of `bedtime`: the retained `Rest` and `Waking_Up` earliest
timestamps plus the derived hour-fraction columns. -/
structure BedtimeRow where
  split_Day : Int
  rest : Nat
  waking_Up : Nat
  time_Bed : ℚ
  time_Wake : ℚ
  watch_ID : Nat
deriving DecidableEq, Repr

/-- `bedtime(df)`.  Returns `None` when no `Waking_Up` epoch exists.  The
per-phase earliest-timestamp pivot has one column per observed `Interval`
value; `drop(columns=["Falling_Asleep", "Active"])` raises `KeyError` when
either column is absent, as does reading the `Rest` column.  The
`x.hour`/`x.minute` lambdas raise `AttributeError` on a NaN cell, i.e. when
some day lacks a `Rest` (resp. `Waking_Up`) epoch. -/
def bedtime (df : List Epoch) : PyResult (List BedtimeRow) :=
  if Interval.Waking_Up ∈ presentIntervals df then
    if Interval.Falling_Asleep ∈ presentIntervals df then
      if Interval.Active ∈ presentIntervals df then
        if Interval.Rest ∈ presentIntervals df then
          if (sortedDays df).all (fun d =>
              df.any (fun e => decide (e.split_Day = d ∧ e.interval = Interval.Rest))) then
            if (sortedDays df).all (fun d =>
                df.any (fun e => decide (e.split_Day = d ∧ e.interval = Interval.Waking_Up))) then
              match firstWatchID df with
              | none => .error "IndexError"
              | some w =>
                .ok ((sortedDays df).map (fun d =>
                  let tb := minDateTime df d Interval.Rest
                  let tw := minDateTime df d Interval.Waking_Up
                  { split_Day := d
                    rest := tb
                    waking_Up := tw
                    time_Bed := ratAdd (ratOfNat (hourOf tb)) (ratDiv (ratOfNat (minuteOf tb)) 60)
                    time_Wake := ratAdd (ratOfNat (hourOf tw)) (ratDiv (ratOfNat (minuteOf tw)) 60)
                    watch_ID := w }))
            else .error "AttributeError"
          else .error "AttributeError"
        else .error "KeyError"
      else .error "KeyError"
    else .error "KeyError"
  else .noneResult

/-- `rhythm_stability(df, rec_freq)`: `raise NotImplementedError`. -/
def rhythm_stability (df : List Epoch) (rec_freq : ℚ) : PyResult Unit :=
  .error "NotImplementedError"

/-- Sorted distinct values of a list of hours (`sorted(df["Hour"].unique())`). -/
def sortedUniqueNat (l : List Nat) : List Nat :=
  List.insertionSort (fun a b : Nat => a ≤ b) (uniqueList l)

/-- `hours = sorted(df["Hour"].unique()); hours[start_hour:] + hours[:start_hour]`:
the observed hours rotated by position `start_hour` (Python slices clamp). -/
def hoursOrder (df : List Epoch) (start_hour : Nat) : List Nat :=
  (sortedUniqueNat (df.map (fun e => e.hour))).drop start_hour ++
    (sortedUniqueNat (df.map (fun e => e.hour))).take start_hour

/-- Lexicographic order on `(Split_Day, Hour)` groupby keys. -/
def dayHourLe (p q : Int × Nat) : Prop :=
  p.1 < q.1 ∨ (p.1 = q.1 ∧ p.2 ≤ q.2)

instance : DecidableRel dayHourLe := fun p q => by
  unfold dayHourLe; infer_instance

instance : IsTotal (Int × Nat) dayHourLe where
  total p q := by
    rcases lt_trichotomy p.1 q.1 with h | h | h
    · exact Or.inl (Or.inl h)
    · rcases Nat.le_total p.2 q.2 with h2 | h2
      · exact Or.inl (Or.inr ⟨h, h2⟩)
      · exact Or.inr (Or.inr ⟨h.symm, h2⟩)
    · exact Or.inr (Or.inl h)

instance : IsTrans (Int × Nat) dayHourLe where
  trans p q r hpq hqr := by
    rcases hpq with h1 | ⟨e1, l1⟩
    · rcases hqr with h2 | ⟨e2, _⟩
      · exact Or.inl (h1.trans h2)
      · exact Or.inl (e2 ▸ h1)
    · rcases hqr with h2 | ⟨e2, l2⟩
      · exact Or.inl (e1 ▸ h2)
      · exact Or.inr ⟨e1.trans e2, l1.trans l2⟩

/-- The `(Split_Day, Hour)` keys of
`df.groupby(["Split_Day", "Hour"]).sum()`, in the sorted key order pandas
produces. -/
def hourAgg (df : List Epoch) : List (Int × Nat) :=
  List.insertionSort dayHourLe (uniqueList (df.map (fun e => (e.split_Day, e.hour))))

/-- Per-(day, hour) activity sum. -/
def hourSum (df : List Epoch) (d : Int) (h : Nat) : Int :=
  ((df.filter (fun e => decide (e.split_Day = d ∧ e.hour = h))).map
    (fun e => e.activity)).sum

/-- One row of the intermediate `rest_phase` frame of `relative_amplitude`:
a day, an hour, that hour's activity sum, and the `Order` column
(`hours.index(hour)`). -/
structure HourRow where
  day : Int
  hour : Nat
  activity : Int
  ord : Nat
deriving DecidableEq, Repr

/-- Lexicographic order on `(Split_Day, Order)` used by
`sort_values(by=["Split_Day", "Order"])`. -/
def hrLe (a b : HourRow) : Prop :=
  a.day < b.day ∨ (a.day = b.day ∧ a.ord ≤ b.ord)

instance : DecidableRel hrLe := fun a b => by
  unfold hrLe; infer_instance

instance : IsTotal HourRow hrLe where
  total p q := by
    rcases lt_trichotomy p.day q.day with h | h | h
    · exact Or.inl (Or.inl h)
    · rcases Nat.le_total p.ord q.ord with h2 | h2
      · exact Or.inl (Or.inr ⟨h, h2⟩)
      · exact Or.inr (Or.inr ⟨h.symm, h2⟩)
    · exact Or.inr (Or.inl h)

instance : IsTrans HourRow hrLe where
  trans p q r hpq hqr := by
    rcases hpq with h1 | ⟨e1, l1⟩
    · rcases hqr with h2 | ⟨e2, _⟩
      · exact Or.inl (h1.trans h2)
      · exact Or.inl (e2 ▸ h1)
    · rcases hqr with h2 | ⟨e2, l2⟩
      · exact Or.inl (e1 ▸ h2)
      · exact Or.inr ⟨e1.trans e2, l1.trans l2⟩

/-- The `rest_phase` frame right after
`sort_values(by=["Split_Day", "Order"])`: per-(day, hour) activity sums with
the cyclic-order column, sorted by day then cyclic order.  This is exactly
the row sequence the rolling-sum step consumes. -/
def raSorted (df : List Epoch) (start_hour : Nat) : List HourRow :=
  List.insertionSort hrLe ((hourAgg df).map (fun p =>
    { day := p.1
      hour := p.2
      activity := hourSum df p.1 p.2
      ord := (hoursOrder df start_hour).indexOf p.2 }))

/-- `Series.rolling(w).sum()`: trailing fixed-width window sums, `none` (NaN)
until `w` values have accumulated. -/
def trailingSums (w : Nat) (xs : List Int) : List (Option Int) :=
  (List.range xs.length).map (fun i =>
    if w ≤ i + 1 then some (((xs.drop (i + 1 - w)).take w).sum) else none)

/-- NaN-skipping maximum (`groupby.max()` on a float column); `none` when
every value is NaN. -/
def optMax (l : List (Option Int)) : Option Int :=
  l.foldl (fun acc x =>
    match acc, x with
    | none, x => x
    | acc, none => acc
    | some a, some b => some (if a ≤ b then b else a)) none

/-- NaN-skipping minimum (`groupby.min()` on a float column). -/
def optMin (l : List (Option Int)) : Option Int :=
  l.foldl (fun acc x =>
    match acc, x with
    | none, x => x
    | acc, none => acc
    | some a, some b => some (if a ≤ b then a else b)) none

/-- The rows of one day's group of the sorted `rest_phase` frame, in cyclic
hour order (groups are contiguous because the frame is sorted by day). -/
def dayRows (df : List Epoch) (start_hour : Nat) (d : Int) : List HourRow :=
  (raSorted df start_hour).filter (fun r => decide (r.day = d))

/-- `M10` of one day: maximum of the day's 10-hour trailing sums. -/
def dayM10 (df : List Epoch) (start_hour : Nat) (d : Int) : Option Int :=
  optMax (trailingSums 10 ((dayRows df start_hour d).map (fun r => r.activity)))

/-- `L5` of one day: minimum of the day's 5-hour trailing sums. -/
def dayL5 (df : List Epoch) (start_hour : Nat) (d : Int) : Option Int :=
  optMin (trailingSums 5 ((dayRows df start_hour d).map (fun r => r.activity)))

/-- One output row of `relative_amplitude`.  `ra = none` models a NaN (or
±infinite) float: M10 or L5 undefined, or a zero denominator. -/
structure RARow where
  day : Int
  ra : Option ℚ
  watch_ID : Nat
deriving DecidableEq, Repr

/-- `RA = (M10 - L5) / (M10 + L5)` in float arithmetic: NaN when either
operand is NaN, NaN/±inf when the denominator is zero (all mapped to `none`). -/
def raValue (m10 l5 : Option Int) : Option ℚ :=
  match m10, l5 with
  | some a, some b =>
      if a + b = 0 then none
      else some (ratDiv (ratOfInt (a - b)) (ratOfInt (a + b)))
  | _, _ => none

/-- `relative_amplitude(df, start_hour)`: per-day M10/L5 over the cyclically
reordered per-hour activity sums, merged on `Split_Day`, then the RA ratio.
The final watch_ID stamp raises `IndexError` on an empty table. -/
def relative_amplitude (df : List Epoch) (start_hour : Nat) : PyResult (List RARow) :=
  match firstWatchID df with
  | none => .error "IndexError"
  | some w =>
      .ok ((sortedDays df).map (fun d =>
        { day := d
          ra := raValue (dayM10 df start_hour d) (dayL5 df start_hour d)
          watch_ID := w }))

/-- One output row of `total_values`: day, total activity, total light. -/
structure TotalsRow where
  split_Day : Int
  activity : Int
  light : Int
  watch_ID : Nat
deriving DecidableEq, Repr

/-- Per-day activity total. -/
def dayActivity (df : List Epoch) (d : Int) : Int :=
  ((df.filter (fun e => decide (e.split_Day = d))).map (fun e => e.activity)).sum

/-- Per-day light total. -/
def dayLight (df : List Epoch) (d : Int) : Int :=
  ((df.filter (fun e => decide (e.split_Day = d))).map (fun e => e.light)).sum

/-- `total_values(df, rec_freq)`: `pivot_table` summing `Activity` and
`Light` per `Split_Day` (sorted day index); `rec_freq` is unused.  The
watch_ID stamp raises `IndexError` on an empty table. -/
def total_values (df : List Epoch) (rec_freq : ℚ) : PyResult (List TotalsRow) :=
  match firstWatchID df with
  | none => .error "IndexError"
  | some w =>
      .ok ((sortedDays df).map (fun d =>
        { split_Day := d
          activity := dayActivity df d
          light := dayLight df d
          watch_ID := w }))

/-! ### Shared helper lemmas -/

theorem firstWatchID_cons (e : Epoch) (l : List Epoch) :
    firstWatchID (e :: l) = some e.watch_ID := by
  simp [firstWatchID, uniqueList, uniqueAux]

theorem mem_pivotIndex {df : List Epoch} {p : Int × Interval} :
    p ∈ pivotIndex df ↔ p ∈ df.map (fun e => (e.split_Day, e.interval)) := by
  rw [pivotIndex, (List.perm_insertionSort pairLe _).mem_iff, mem_uniqueList]

theorem nodup_pivotIndex (df : List Epoch) : (pivotIndex df).Nodup :=
  ((List.perm_insertionSort pairLe _).nodup_iff).mpr (nodup_uniqueList _)

theorem mem_sortedDays {df : List Epoch} {d : Int} :
    d ∈ sortedDays df ↔ d ∈ df.map (fun e => e.split_Day) := by
  rw [sortedDays, (List.perm_insertionSort _ _).mem_iff, mem_uniqueList]

theorem nodup_sortedDays (df : List Epoch) : (sortedDays df).Nodup :=
  ((List.perm_insertionSort _ _).nodup_iff).mpr (nodup_uniqueList _)

theorem mem_sortedDaysOf {pairs : List (Int × Interval)} {d : Int} :
    d ∈ sortedDaysOf pairs ↔ d ∈ pairs.map (fun p => p.1) := by
  rw [sortedDaysOf, (List.perm_insertionSort _ _).mem_iff, mem_uniqueList]

theorem nodup_sortedDaysOf (pairs : List (Int × Interval)) :
    (sortedDaysOf pairs).Nodup :=
  ((List.perm_insertionSort _ _).nodup_iff).mpr (nodup_uniqueList _)

theorem count_nodup {α : Type} [DecidableEq α] {l : List α} (h : l.Nodup) (a : α) :
    l.count a = if a ∈ l then 1 else 0 := by
  by_cases hm : a ∈ l
  · rw [if_pos hm]
    exact List.count_eq_one_of_mem h hm
  · rw [if_neg hm]
    exact List.count_eq_zero_of_not_mem hm

theorem cellCount_eq_zero {df : List Epoch} {d : Int} {i : Interval}
    (h : (d, i) ∉ df.map (fun e => (e.split_Day, e.interval))) (s : SleepActi) :
    cellCount df d i s = 0 := by
  rw [cellCount, List.length_eq_zero, List.filter_eq_nil_iff]
  intro e he hmatch
  rw [decide_eq_true_eq] at hmatch
  exact h (List.mem_map.mpr ⟨e, he, by rw [hmatch.1, hmatch.2.1]⟩)

/-! ### Concrete example tables used by counterexamples and witnesses -/

/-- 480 `Rest` epochs on one day: 440 `Sleep`, then 40 `Wake` (scenario A). -/
def dfScenarioA : List Epoch :=
  List.replicate 440 ⟨7, 0, 0, 1, Interval.Rest, SleepActi.Sleep, 0, 0⟩ ++
    List.replicate 40 ⟨7, 0, 0, 1, Interval.Rest, SleepActi.Wake, 0, 0⟩

/-- A one-day table whose epochs are all classified `Sleep` (no `Wake`
classification anywhere). -/
def dfAllSleep : List Epoch := [⟨7, 0, 0, 1, Interval.Rest, SleepActi.Sleep, 0, 0⟩]

/-- One day of 24 hourly epochs with activity 10 each (scenario C). -/
def dfScenarioC : List Epoch :=
  (List.range 24).map (fun h => ⟨7, h * 60, h, 1, Interval.Active, SleepActi.Wake, 10, 0⟩)

/-- A table whose `Hour` column only contains 10 and 20. -/
def dfSparseHours : List Epoch :=
  [⟨7, 0, 10, 1, Interval.Active, SleepActi.Wake, 3, 0⟩,
   ⟨7, 0, 20, 1, Interval.Active, SleepActi.Wake, 5, 0⟩]

/-- A table with `Falling_Asleep` epochs of both classifications and no
`Waking_Up` epoch. -/
def dfNoWakingUp : List Epoch :=
  [⟨7, 0, 0, 1, Interval.Falling_Asleep, SleepActi.Sleep, 0, 0⟩,
   ⟨7, 0, 0, 1, Interval.Falling_Asleep, SleepActi.Wake, 0, 0⟩]

/-- A table with a `Waking_Up` epoch but no `Falling_Asleep` epoch. -/
def dfOnlyWakingUp : List Epoch :=
  [⟨7, 0, 0, 1, Interval.Waking_Up, SleepActi.Sleep, 0, 0⟩]

/-- One day carrying all four interval phases (bedtime succeeds on it). -/
def dfFullDay : List Epoch :=
  [⟨7, 100, 1, 1, Interval.Active, SleepActi.Wake, 0, 0⟩,
   ⟨7, 1380, 23, 1, Interval.Falling_Asleep, SleepActi.Sleep, 0, 0⟩,
   ⟨7, 1390, 23, 1, Interval.Rest, SleepActi.Sleep, 0, 0⟩,
   ⟨7, 1870, 7, 1, Interval.Waking_Up, SleepActi.Wake, 0, 0⟩]

/-- A two-subject table (watch_IDs 3 then 9). -/
def dfTwoSubjects : List Epoch :=
  [⟨3, 0, 0, 1, Interval.Active, SleepActi.Wake, 5, 1⟩,
   ⟨9, 0, 0, 2, Interval.Rest, SleepActi.Sleep, 10, 2⟩]

/-! ### Claims -/

/-- C8: for every input, `rhythm_stability` unconditionally signals
"not implemented" (an uncaught `NotImplementedError`), producing no result;
the model is a pure function, so there is no partial side effect. -/
theorem C8_rhythm_stability_not_implemented (df : List Epoch) (rec_freq : ℚ) :
    rhythm_stability df rec_freq = PyResult.error "NotImplementedError" := rfl

set_option maxRecDepth 40000 in
/-- C4: on scenario A (480 Rest epochs of one day, 440 Sleep and 40 Wake,
30-second recording interval) `sleep_metrics` yields TST_Min = 220,
WASO_Min = 20 and SE = 100·440/480 = 275/3 = 91.666… for that day. -/
theorem C4_scenarioA :
    sleep_metrics dfScenarioA 30 =
      PyResult.ok [{ split_Day := 1, sleep := 440, wake := 40, tst_Min := 220,
                     waso_Min := 20, se := mkRat 275 3, watch_ID := 7 }] := by
  decide

/-- C6: on scenario C (one day, `day_start_hour = 0`, activity uniformly 10
over the 24 hours) the 10-hour trailing sums are undefined for the first 9
positions, M10 = 100, L5 = 50, and RA = (100−50)/(100+50) = 1/3. -/
theorem C6_scenarioC :
    (trailingSums 10 ((dayRows dfScenarioC 0 1).map (fun r => r.activity))).take 9 =
        List.replicate 9 none ∧
      (trailingSums 5 ((dayRows dfScenarioC 0 1).map (fun r => r.activity))).take 4 =
        List.replicate 4 none ∧
      dayM10 dfScenarioC 0 1 = some 100 ∧
      dayL5 dfScenarioC 0 1 = some 50 ∧
      relative_amplitude dfScenarioC 0 =
        PyResult.ok [{ day := 1, ra := some (mkRat 1 3), watch_ID := 7 }] := by
  refine ⟨by decide, by decide, by decide, by decide, by decide⟩

/-- C3: a table with no `Falling_Asleep` epoch makes `sleep_latency` return
the `None` sentinel without raising, and a table with no `Waking_Up` epoch
makes `bedtime` return the `None` sentinel without raising. -/
theorem C3_absent_phase_returns_sentinel (df df' : List Epoch) (rec_freq : ℚ)
    (hFA : ∀ e ∈ df, e.interval ≠ Interval.Falling_Asleep)
    (hWU : ∀ e ∈ df', e.interval ≠ Interval.Waking_Up) :
    sleep_latency df rec_freq = PyResult.noneResult ∧
      bedtime df' = PyResult.noneResult := by
  constructor
  · rw [sleep_latency, if_neg]
    intro hmem
    rw [presentIntervals, mem_uniqueList] at hmem
    obtain ⟨e, he, heq⟩ := List.mem_map.mp hmem
    exact hFA e he heq
  · rw [bedtime, if_neg]
    intro hmem
    rw [presentIntervals, mem_uniqueList] at hmem
    obtain ⟨e, he, heq⟩ := List.mem_map.mp hmem
    exact hWU e he heq

/-- Witness for C3 at concrete inputs: `dfAllSleep` has no `Falling_Asleep`
epoch and no `Waking_Up` epoch. -/
theorem C3_absent_phase_returns_sentinel_witness :
    sleep_latency dfAllSleep 30 = PyResult.noneResult ∧
      bedtime dfAllSleep = PyResult.noneResult :=
  C3_absent_phase_returns_sentinel dfAllSleep dfAllSleep 30 (by decide) (by decide)

/-- Counterexample to C1: on a table whose epochs are all classified `Sleep`,
the count pivot has no `Wake` column at all, so `sleep_metrics` raises
`KeyError` instead of reading a zero `Wake` count — the pivot does not supply
a zero-filled count for a classification value absent from the whole table. -/
theorem C1_counterexample :
    sleep_metrics dfAllSleep 30 = PyResult.error "KeyError" := by decide

/-- C7: `total_values` ignores `rec_freq` entirely, and on success its output
has exactly one row per distinct `Split_Day`, whose `Activity` and `Light`
entries are the sums over all epochs of that day regardless of phase or
classification. -/
theorem C7_total_values_rec_freq_unused (df : List Epoch) (r₁ r₂ : ℚ) :
    total_values df r₁ = total_values df r₂ ∧
      ∀ t, total_values df r₁ = PyResult.ok t →
        (∀ d : Int, (t.map (fun r => r.split_Day)).count d =
            if d ∈ df.map (fun e => e.split_Day) then 1 else 0) ∧
        ∀ row ∈ t,
          row.activity =
              ((df.filter (fun e => decide (e.split_Day = row.split_Day))).map
                (fun e => e.activity)).sum ∧
            row.light =
              ((df.filter (fun e => decide (e.split_Day = row.split_Day))).map
                (fun e => e.light)).sum := by
  refine ⟨rfl, fun t hok => ?_⟩
  rw [total_values] at hok
  rcases hdf : firstWatchID df with _ | w
  · rw [hdf] at hok; exact absurd hok (by simp)
  rw [hdf] at hok
  have ht : t = (sortedDays df).map (fun d =>
      { split_Day := d, activity := dayActivity df d, light := dayLight df d,
        watch_ID := w }) := by
    cases hok; rfl
  subst ht
  constructor
  · intro d
    rw [List.map_map]
    have : ((fun r : TotalsRow => r.split_Day) ∘ (fun d =>
        ({ split_Day := d, activity := dayActivity df d, light := dayLight df d,
           watch_ID := w } : TotalsRow))) = id := rfl
    rw [this, List.map_id, count_nodup (nodup_sortedDays df)]
    by_cases hd : d ∈ df.map (fun e => e.split_Day)
    · rw [if_pos (mem_sortedDays.mpr hd), if_pos hd]
    · rw [if_neg (fun h => hd (mem_sortedDays.mp h)), if_neg hd]
  · intro row hrow
    obtain ⟨d, _, rfl⟩ := List.mem_map.mp hrow
    exact ⟨rfl, rfl⟩

/-- Witness for C7 at a concrete input: applying the theorem to the
two-subject table and two different recording frequencies. -/
theorem C7_total_values_rec_freq_unused_witness :
    total_values dfTwoSubjects 30 = total_values dfTwoSubjects 999 ∧
      ((([{ split_Day := 1, activity := 5, light := 1, watch_ID := 3 },
          { split_Day := 2, activity := 10, light := 2, watch_ID := 3 }] :
            List TotalsRow).map (fun r => r.split_Day)).count 1 =
        if (1 : Int) ∈ dfTwoSubjects.map (fun e => e.split_Day) then 1 else 0) :=
  ⟨(C7_total_values_rec_freq_unused dfTwoSubjects 30 999).1,
   ((C7_total_values_rec_freq_unused dfTwoSubjects 30 999).2 _ (by decide)).1 1⟩

theorem map_proj_eq {α β : Type} (f : α → β) (g : β → α)
    (hf : ∀ a, g (f a) = a) (l : List α) : (l.map f).map g = l := by
  rw [List.map_map]
  have h : ∀ a ∈ l, (g ∘ f) a = id a := fun a _ => hf a
  rw [List.map_congr_left h, List.map_id]

theorem count_fst_filter_const (l : List (Int × Interval)) (c : Interval)
    (hn : l.Nodup) (hc : ∀ p ∈ l, p.2 = c) (d : Int) :
    (l.map Prod.fst).count d = if (d, c) ∈ l then 1 else 0 := by
  have hmapnd : (l.map Prod.fst).Nodup := by
    refine hn.map_on ?_
    intro x hx y hy hxy
    have hx2 := hc x hx
    have hy2 := hc y hy
    cases x
    cases y
    simp_all
  rw [count_nodup hmapnd]
  by_cases hmem : (d, c) ∈ l
  · rw [if_pos hmem, if_pos (List.mem_map.mpr ⟨(d, c), hmem, rfl⟩)]
  · rw [if_neg hmem, if_neg]
    intro hd
    obtain ⟨p, hp, hpd⟩ := List.mem_map.mp hd
    have hpc : p = (d, c) := by
      cases p
      simp only [Prod.mk.injEq]
      exact ⟨hpd, hc _ hp⟩
    exact hmem (hpc ▸ hp)

set_option maxRecDepth 40000 in
/-- C1 amended: the zero-fill guarantee of the sleep/wake pivot holds only
when both `Sleep` and `Wake` classifications occur somewhere in the table
(`C1_counterexample` shows `sleep_metrics` raising `KeyError` otherwise).
Under that proviso, `sleep_metrics` succeeds, its output has exactly one row
per `Split_Day` having a `Rest` phase, and each such row carries both a
`Sleep` and a `Wake` epoch count — total (never-missing) values that are 0
when no epoch of that classification occurred in the day's Rest phase. -/
theorem C1_amended_pivot_zero_fill (df : List Epoch) (rec_freq : ℚ) (w : Nat)
    (hS : SleepActi.Sleep ∈ df.map (fun e => e.sleep_Acti))
    (hW : SleepActi.Wake ∈ df.map (fun e => e.sleep_Acti))
    (hw : firstWatchID df = some w) :
    sleep_metrics df rec_freq = PyResult.ok (metricsRows df rec_freq w) ∧
      (∀ d : Int, ((metricsRows df rec_freq w).map (fun r => r.split_Day)).count d =
        if (d, Interval.Rest) ∈ df.map (fun e => (e.split_Day, e.interval)) then 1
        else 0) ∧
      ∀ row ∈ metricsRows df rec_freq w,
        row.sleep = cellCount df row.split_Day Interval.Rest SleepActi.Sleep ∧
          row.wake = cellCount df row.split_Day Interval.Rest SleepActi.Wake := by
  have hSp : SleepActi.Sleep ∈ presentActis df := by
    rw [presentActis, mem_uniqueList]; exact hS
  have hWp : SleepActi.Wake ∈ presentActis df := by
    rw [presentActis, mem_uniqueList]; exact hW
  refine ⟨by rw [sleep_metrics, if_pos hSp, if_pos hWp, hw], fun d => ?_, ?_⟩
  · rw [metricsRows, List.map_map]
    have hcomp : (fun p : Int × Interval => p.1) =
        ((fun r : MetricsRow => r.split_Day) ∘ (fun p : Int × Interval =>
          let s := cellCount df p.1 p.2 SleepActi.Sleep
          let k := cellCount df p.1 p.2 SleepActi.Wake
          ({ split_Day := p.1, sleep := s, wake := k,
             tst_Min := ratMul (ratOfNat s) (ratDiv rec_freq 60),
             waso_Min := ratMul (ratOfNat k) (ratDiv rec_freq 60),
             se := ratMul 100 (ratDiv (ratOfNat s) (ratAdd (ratOfNat s) (ratOfNat k))),
             watch_ID := w } : MetricsRow))) := rfl
    rw [← hcomp]
    have hnodup : ((pivotIndex df).filter
        (fun p => decide (p.2 = Interval.Rest))).Nodup :=
      (nodup_pivotIndex df).filter _
    have hconst : ∀ p ∈ (pivotIndex df).filter
        (fun p => decide (p.2 = Interval.Rest)), p.2 = Interval.Rest := by
      intro p hp
      exact of_decide_eq_true (List.mem_filter.mp hp).2
    rw [show ((pivotIndex df).filter
          (fun p => decide (p.2 = Interval.Rest))).map (fun p : Int × Interval => p.1) =
        ((pivotIndex df).filter
          (fun p => decide (p.2 = Interval.Rest))).map Prod.fst from rfl]
    rw [count_fst_filter_const _ Interval.Rest hnodup hconst d]
    by_cases hmem : (d, Interval.Rest) ∈ df.map (fun e => (e.split_Day, e.interval))
    · rw [if_pos hmem, if_pos]
      exact List.mem_filter.mpr ⟨mem_pivotIndex.mpr hmem, rfl⟩
    · rw [if_neg hmem, if_neg]
      intro hin
      exact hmem (mem_pivotIndex.mp (List.mem_filter.mp hin).1)
  · intro row hrow
    rw [metricsRows] at hrow
    obtain ⟨p, hp, rfl⟩ := List.mem_map.mp hrow
    have hRest : p.2 = Interval.Rest :=
      of_decide_eq_true (List.mem_filter.mp hp).2
    exact ⟨by rw [← hRest], by rw [← hRest]⟩

set_option maxRecDepth 40000 in
/-- Witness for C1 amended: scenario A's table contains both classifications,
and the theorem applies to it. -/
theorem C1_amended_pivot_zero_fill_witness :
    sleep_metrics dfScenarioA 30 = PyResult.ok (metricsRows dfScenarioA 30 7) :=
  (C1_amended_pivot_zero_fill dfScenarioA 30 7 (by decide) (by decide) (by decide)).1

/-- Position of hour `h` in the cyclical sequence of the 24 hour-of-day
values that starts at hour `s`: hours ≥ s come first in increasing order,
hours strictly before `s` come after.  This follows the spec's words and is
compared against the ordering the code actually produces. -/
def cyclicPos (s h : Nat) : Nat := if s ≤ h then h - s else h + 24 - s

/-- Counterexample to C2: on a table whose `Hour` column only contains
{10, 20}, with `day_start_hour = 1`, the code rotates the 2-element sorted
unique hour list by one position, ordering hour 20 before hour 10 within the
day — not the cyclical sequence of the 24 hour-of-day values starting at 1,
which puts 10 (position 9) before 20 (position 19). -/
theorem C2_counterexample :
    ¬ List.Pairwise (fun a b : HourRow =>
        a.day < b.day ∨ (a.day = b.day ∧ cyclicPos 1 a.hour ≤ cyclicPos 1 b.hour))
      (raSorted dfSparseHours 1) := by decide

theorem sortedUniqueNat_eq_range (l : List Nat)
    (hall : ∀ h : Nat, h < 24 → h ∈ l) (hlt : ∀ h ∈ l, h < 24) :
    sortedUniqueNat l = List.range 24 := by
  have hnd : (sortedUniqueNat l).Nodup :=
    ((List.perm_insertionSort _ _).nodup_iff).mpr (nodup_uniqueList _)
  have hmem : ∀ a, a ∈ sortedUniqueNat l ↔ a ∈ List.range 24 := by
    intro a
    rw [sortedUniqueNat, (List.perm_insertionSort _ _).mem_iff, mem_uniqueList,
      List.mem_range]
    exact ⟨fun h => hlt a h, fun h => hall a h⟩
  exact List.eq_of_perm_of_sorted
    ((List.perm_ext_iff_of_nodup hnd (List.nodup_range 24)).mpr hmem)
    (List.sorted_insertionSort _ _) (List.sorted_le_range 24)

theorem rot_indexOf : ∀ s : Nat, s < 24 → ∀ h : Nat, h < 24 →
    ((List.range 24).drop s ++ (List.range 24).take s).indexOf h = cyclicPos s h := by
  decide

/-- C2 amended: the reindexing `hours[start_hour:] + hours[:start_hour]`
coincides with the claimed cyclical sequence of the 24 hour-of-day values
starting at `day_start_hour` only when all 24 hours occur in the table
(`C2_counterexample` refutes the unconditional claim).  Under that proviso
the code's hour order is exactly the claimed rotation, and the row sequence
consumed by the rolling sums is sorted by day and then by cyclic position
(hours before the start hour after hours ≥ the start hour). -/
theorem C2_amended_cyclic_order (df : List Epoch) (s : Nat) (hs : s < 24)
    (hall : ∀ h : Nat, h < 24 → h ∈ df.map (fun e => e.hour))
    (hlt : ∀ e ∈ df, e.hour < 24) :
    hoursOrder df s = (List.range 24).drop s ++ (List.range 24).take s ∧
      List.Pairwise (fun a b : HourRow =>
        a.day < b.day ∨ (a.day = b.day ∧ cyclicPos s a.hour ≤ cyclicPos s b.hour))
        (raSorted df s) := by
  have hlt' : ∀ h ∈ df.map (fun e => e.hour), h < 24 := by
    intro h hh
    obtain ⟨e, he, rfl⟩ := List.mem_map.mp hh
    exact hlt e he
  have hrange : sortedUniqueNat (df.map (fun e => e.hour)) = List.range 24 :=
    sortedUniqueNat_eq_range _ hall hlt'
  have horder : hoursOrder df s = (List.range 24).drop s ++ (List.range 24).take s := by
    rw [hoursOrder, hrange]
  refine ⟨horder, ?_⟩
  have hmemrow : ∀ r ∈ raSorted df s,
      r.ord = cyclicPos s r.hour := by
    intro r hr
    rw [raSorted, (List.perm_insertionSort _ _).mem_iff] at hr
    obtain ⟨p, hp, rfl⟩ := List.mem_map.mp hr
    have hhour : p.2 ∈ df.map (fun e => e.hour) := by
      rw [hourAgg, (List.perm_insertionSort _ _).mem_iff, mem_uniqueList] at hp
      obtain ⟨e, he, rfl⟩ := List.mem_map.mp hp
      exact List.mem_map.mpr ⟨e, he, rfl⟩
    show (hoursOrder df s).indexOf p.2 = cyclicPos s p.2
    rw [horder]
    exact rot_indexOf s hs p.2 (hlt' p.2 hhour)
  have hsorted : List.Pairwise hrLe (raSorted df s) :=
    List.sorted_insertionSort hrLe _
  refine hsorted.imp_of_mem ?_
  intro a b ha hb hab
  rcases hab with h1 | ⟨h1, h2⟩
  · exact Or.inl h1
  · exact Or.inr ⟨h1, by rw [← hmemrow a ha, ← hmemrow b hb]; exact h2⟩

/-- Witness for C2 amended at a concrete input: scenario C's table contains
all 24 hours, with `day_start_hour = 7`. -/
theorem C2_amended_cyclic_order_witness :
    hoursOrder dfScenarioC 7 = (List.range 24).drop 7 ++ (List.range 24).take 7 ∧
      List.Pairwise (fun a b : HourRow =>
        a.day < b.day ∨ (a.day = b.day ∧ cyclicPos 7 a.hour ≤ cyclicPos 7 b.hour))
        (raSorted dfScenarioC 7) :=
  C2_amended_cyclic_order dfScenarioC 7 (by decide) (by decide) (by decide)

/-- Counterexample to C5: a table with `Falling_Asleep` epochs of both
classifications but no `Waking_Up` epoch anywhere.  `sleep_latency` produces
a result, but its re-pivot has no `Wake_Latency_Min` column at all
(`wake_Latency_Min = none` on the single row) — the output does not carry
both latency columns, and the missing phase is not 0-filled. -/
theorem C5_counterexample :
    sleep_latency dfNoWakingUp 30 =
      PyResult.ok [{ split_Day := 1, sleep_Latency_Min := some 1,
                     wake_Latency_Min := none, watch_ID := 7 }] := by
  decide

/-- C5 amended: the per-day reshape with both latency columns and 0-fill
holds when, in addition to a `Falling_Asleep` epoch being present, some
`Waking_Up` epoch occurs in the table (else the `Wake_Latency_Min` column is
absent — `C5_counterexample`) and both classifications occur (else the
`Sleep`/`Wake` count columns raise `KeyError`).  Then `sleep_latency`
succeeds with exactly one row per `Split_Day` having a `Falling_Asleep` or
`Waking_Up` phase, every row carries both columns, and a day missing one of
the two phases gets value 0 for that column rather than a missing value or a
dropped row. -/
theorem C5_amended_latency_reshape (df : List Epoch) (rec_freq : ℚ) (w : Nat)
    (hFA : Interval.Falling_Asleep ∈ df.map (fun e => e.interval))
    (hWU : Interval.Waking_Up ∈ df.map (fun e => e.interval))
    (hS : SleepActi.Sleep ∈ df.map (fun e => e.sleep_Acti))
    (hW : SleepActi.Wake ∈ df.map (fun e => e.sleep_Acti))
    (hw : firstWatchID df = some w) :
    sleep_latency df rec_freq = PyResult.ok (latencyRows df rec_freq w) ∧
      (∀ d : Int, ((latencyRows df rec_freq w).map (fun r => r.split_Day)).count d =
        if ((d, Interval.Falling_Asleep) ∈ df.map (fun e => (e.split_Day, e.interval)) ∨
            (d, Interval.Waking_Up) ∈ df.map (fun e => (e.split_Day, e.interval)))
        then 1 else 0) ∧
      ∀ row ∈ latencyRows df rec_freq w,
        row.sleep_Latency_Min =
            some (latencyVal df row.split_Day Interval.Falling_Asleep rec_freq) ∧
          row.wake_Latency_Min =
            some (latencyVal df row.split_Day Interval.Waking_Up rec_freq) ∧
          ((row.split_Day, Interval.Waking_Up) ∉
              df.map (fun e => (e.split_Day, e.interval)) →
            row.wake_Latency_Min = some 0) ∧
          ((row.split_Day, Interval.Falling_Asleep) ∉
              df.map (fun e => (e.split_Day, e.interval)) →
            row.sleep_Latency_Min = some 0) := by
  have hFAp : Interval.Falling_Asleep ∈ presentIntervals df := by
    rw [presentIntervals, mem_uniqueList]; exact hFA
  have hSp : SleepActi.Sleep ∈ presentActis df := by
    rw [presentActis, mem_uniqueList]; exact hS
  have hWp : SleepActi.Wake ∈ presentActis df := by
    rw [presentActis, mem_uniqueList]; exact hW
  obtain ⟨eFA, heFA, heFA2⟩ := List.mem_map.mp hFA
  obtain ⟨eWU, heWU, heWU2⟩ := List.mem_map.mp hWU
  have hFAlat : (eFA.split_Day, Interval.Falling_Asleep) ∈ latPairs df := by
    refine List.mem_filter.mpr ⟨mem_pivotIndex.mpr ?_, rfl⟩
    exact List.mem_map.mpr ⟨eFA, heFA, by rw [heFA2]⟩
  have hWUlat : (eWU.split_Day, Interval.Waking_Up) ∈ latPairs df := by
    refine List.mem_filter.mpr ⟨mem_pivotIndex.mpr ?_, rfl⟩
    exact List.mem_map.mpr ⟨eWU, heWU, by rw [heWU2]⟩
  have hFAany : (latPairs df).any
      (fun p => decide (p.2 = Interval.Falling_Asleep)) = true :=
    List.any_eq_true.mpr ⟨(eFA.split_Day, Interval.Falling_Asleep), hFAlat, rfl⟩
  have hWUany : (latPairs df).any
      (fun p => decide (p.2 = Interval.Waking_Up)) = true :=
    List.any_eq_true.mpr ⟨(eWU.split_Day, Interval.Waking_Up), hWUlat, rfl⟩
  have hmemlat : ∀ (d : Int) (i : Interval),
      (i = Interval.Falling_Asleep ∨ i = Interval.Waking_Up) →
      ((d, i) ∈ latPairs df ↔
        (d, i) ∈ df.map (fun e => (e.split_Day, e.interval))) := by
    intro d i hi
    constructor
    · intro h
      exact mem_pivotIndex.mp (List.mem_filter.mp h).1
    · intro h
      exact List.mem_filter.mpr ⟨mem_pivotIndex.mpr h, decide_eq_true hi⟩
  have hval0 : ∀ (d : Int) (i : Interval),
      (d, i) ∉ df.map (fun e => (e.split_Day, e.interval)) →
      latencyVal df d i rec_freq = 0 := by
    intro d i h
    rw [latencyVal, cellCount_eq_zero h, cellCount_eq_zero h, ratMul_eq_mul]
    show (ratOfNat 0) * _ = 0
    show (0 : ℚ) * _ = 0
    exact zero_mul _
  refine ⟨by rw [sleep_latency, if_pos hFAp, if_pos hSp, if_pos hWp, hw], fun d => ?_, ?_⟩
  · rw [latencyRows]
    rw [map_proj_eq _ _ (fun d => rfl), count_nodup (nodup_sortedDaysOf _)]
    by_cases hmem : (d, Interval.Falling_Asleep) ∈
        df.map (fun e => (e.split_Day, e.interval)) ∨
        (d, Interval.Waking_Up) ∈ df.map (fun e => (e.split_Day, e.interval))
    · rw [if_pos hmem, if_pos]
      refine mem_sortedDaysOf.mpr ?_
      rcases hmem with hmem | hmem
      · exact List.mem_map.mpr ⟨(d, Interval.Falling_Asleep),
          (hmemlat d _ (Or.inl rfl)).mpr hmem, rfl⟩
      · exact List.mem_map.mpr ⟨(d, Interval.Waking_Up),
          (hmemlat d _ (Or.inr rfl)).mpr hmem, rfl⟩
    · rw [if_neg hmem, if_neg]
      intro hin
      obtain ⟨p, hp, rfl⟩ := List.mem_map.mp (mem_sortedDaysOf.mp hin)
      have hp2 := of_decide_eq_true (List.mem_filter.mp hp).2
      have hpiv := mem_pivotIndex.mp (List.mem_filter.mp hp).1
      rcases hp2 with h2 | h2
      · exact hmem (Or.inl (by rw [← h2]; exact hpiv))
      · exact hmem (Or.inr (by rw [← h2]; exact hpiv))
  · intro row hrow
    rw [latencyRows] at hrow
    simp only [List.mem_map] at hrow
    obtain ⟨d, hd, rfl⟩ := hrow
    simp only [hFAany, hWUany, if_true]
    refine ⟨?_, ?_, ?_, ?_⟩
    · by_cases hmem : (d, Interval.Falling_Asleep) ∈ latPairs df
      · rw [if_pos hmem]
      · rw [if_neg hmem]
        rw [hval0 d Interval.Falling_Asleep]
        intro h
        exact hmem ((hmemlat d _ (Or.inl rfl)).mpr h)
    · by_cases hmem : (d, Interval.Waking_Up) ∈ latPairs df
      · rw [if_pos hmem]
      · rw [if_neg hmem]
        rw [hval0 d Interval.Waking_Up]
        intro h
        exact hmem ((hmemlat d _ (Or.inr rfl)).mpr h)
    · intro h
      rw [if_neg (fun hc => h ((hmemlat d _ (Or.inr rfl)).mp hc))]
    · intro h
      rw [if_neg (fun hc => h ((hmemlat d _ (Or.inl rfl)).mp hc))]

/-- Witness for C5 amended: one day with both transition phases and both
classifications. -/
theorem C5_amended_latency_reshape_witness :
    sleep_latency
        [⟨7, 0, 0, 1, Interval.Falling_Asleep, SleepActi.Sleep, 0, 0⟩,
         ⟨7, 0, 0, 2, Interval.Waking_Up, SleepActi.Wake, 0, 0⟩] 30 =
      PyResult.ok (latencyRows
        [⟨7, 0, 0, 1, Interval.Falling_Asleep, SleepActi.Sleep, 0, 0⟩,
         ⟨7, 0, 0, 2, Interval.Waking_Up, SleepActi.Wake, 0, 0⟩] 30 7) :=
  (C5_amended_latency_reshape _ 30 7 (by decide) (by decide) (by decide) (by decide)
    (by decide)).1

/-- C9: a table with a `Waking_Up` epoch but no `Falling_Asleep` (or no
`Active`) epoch makes `bedtime` fail with an uncontrolled `KeyError` when
dropping the `Falling_Asleep`/`Active` pivot columns, rather than returning a
result or the not-applicable sentinel; and `bedtime` only ever returns a
result when all four interval labels occur in the table. -/
theorem C9_bedtime_requires_all_phases (df : List Epoch) :
    (Interval.Waking_Up ∈ df.map (fun e => e.interval) →
      (Interval.Falling_Asleep ∉ df.map (fun e => e.interval) ∨
        Interval.Active ∉ df.map (fun e => e.interval)) →
      bedtime df = PyResult.error "KeyError") ∧
      ∀ t, bedtime df = PyResult.ok t →
        Interval.Active ∈ df.map (fun e => e.interval) ∧
          Interval.Rest ∈ df.map (fun e => e.interval) ∧
          Interval.Falling_Asleep ∈ df.map (fun e => e.interval) ∧
          Interval.Waking_Up ∈ df.map (fun e => e.interval) := by
  have hconv : ∀ i : Interval,
      i ∈ presentIntervals df ↔ i ∈ df.map (fun e => e.interval) := by
    intro i
    rw [presentIntervals, mem_uniqueList]
  constructor
  · intro hWU habs
    rw [bedtime, if_pos ((hconv _).mpr hWU)]
    rcases habs with hFA | hAct
    · rw [if_neg (fun h => hFA ((hconv _).mp h))]
    · by_cases hFA : Interval.Falling_Asleep ∈ presentIntervals df
      · rw [if_pos hFA, if_neg (fun h => hAct ((hconv _).mp h))]
      · rw [if_neg hFA]
  · intro t hok
    rw [bedtime] at hok
    by_cases h1 : Interval.Waking_Up ∈ presentIntervals df
    case neg => rw [if_neg h1] at hok; exact absurd hok (by simp)
    rw [if_pos h1] at hok
    by_cases h2 : Interval.Falling_Asleep ∈ presentIntervals df
    case neg => rw [if_neg h2] at hok; exact absurd hok (by simp)
    rw [if_pos h2] at hok
    by_cases h3 : Interval.Active ∈ presentIntervals df
    case neg => rw [if_neg h3] at hok; exact absurd hok (by simp)
    rw [if_pos h3] at hok
    by_cases h4 : Interval.Rest ∈ presentIntervals df
    case neg => rw [if_neg h4] at hok; exact absurd hok (by simp)
    exact ⟨(hconv _).mp h3, (hconv _).mp h4, (hconv _).mp h2, (hconv _).mp h1⟩

/-- Witness for C9 at concrete inputs: a lone `Waking_Up` epoch triggers the
`KeyError`, and on a fully-phased day `bedtime` succeeds, so all four labels
are indeed present there. -/
theorem C9_bedtime_requires_all_phases_witness :
    bedtime dfOnlyWakingUp = PyResult.error "KeyError" ∧
      Interval.Rest ∈ dfFullDay.map (fun e => e.interval) :=
  ⟨(C9_bedtime_requires_all_phases dfOnlyWakingUp).1 (by decide) (Or.inl (by decide)),
   ((C9_bedtime_requires_all_phases dfFullDay).2
      [{ split_Day := 1, rest := 1390, waking_Up := 1870,
         time_Bed := mkRat 139 6, time_Wake := mkRat 43 6, watch_ID := 7 }]
      (by decide)).2.1⟩

/-- C10: no reducer rejects a multi-subject table — whenever a reducer
returns a table at all, every output row is stamped with the first distinct
`watch_ID` value encountered in the input's watch_ID column in row order
(`firstWatchID`), and any other subjects' identifiers are silently
discarded. -/
theorem C10_first_watch_id_stamped (df : List Epoch) :
    (∀ (rf : ℚ) (t : List MetricsRow), sleep_metrics df rf = PyResult.ok t →
      ∀ r ∈ t, some r.watch_ID = firstWatchID df) ∧
      (∀ (rf : ℚ) (t : List LatencyRow), sleep_latency df rf = PyResult.ok t →
        ∀ r ∈ t, some r.watch_ID = firstWatchID df) ∧
      (∀ t : List BedtimeRow, bedtime df = PyResult.ok t →
        ∀ r ∈ t, some r.watch_ID = firstWatchID df) ∧
      (∀ (s : Nat) (t : List RARow), relative_amplitude df s = PyResult.ok t →
        ∀ r ∈ t, some r.watch_ID = firstWatchID df) ∧
      ∀ (rf : ℚ) (t : List TotalsRow), total_values df rf = PyResult.ok t →
        ∀ r ∈ t, some r.watch_ID = firstWatchID df := by
  refine ⟨?_, ?_, ?_, ?_, ?_⟩
  · intro rf t hok r hr
    rw [sleep_metrics] at hok
    split at hok
    · split at hok
      · rcases hW : firstWatchID df with _ | w <;> rw [hW] at hok
        · exact absurd hok (by simp)
        · cases hok
          obtain ⟨p, _, rfl⟩ := List.mem_map.mp hr
          rfl
      · exact absurd hok (by simp)
    · exact absurd hok (by simp)
  · intro rf t hok r hr
    rw [sleep_latency] at hok
    split at hok
    · split at hok
      · split at hok
        · rcases hW : firstWatchID df with _ | w <;> rw [hW] at hok
          · exact absurd hok (by simp)
          · cases hok
            rw [latencyRows] at hr
            obtain ⟨d, _, rfl⟩ := List.mem_map.mp hr
            rfl
        · exact absurd hok (by simp)
      · exact absurd hok (by simp)
    · exact absurd hok (by simp)
  · intro t hok r hr
    rw [bedtime] at hok
    split at hok
    · split at hok
      · split at hok
        · split at hok
          · split at hok
            · split at hok
              · rcases hW : firstWatchID df with _ | w <;> rw [hW] at hok
                · exact absurd hok (by simp)
                · cases hok
                  obtain ⟨d, _, rfl⟩ := List.mem_map.mp hr
                  rfl
              · exact absurd hok (by simp)
            · exact absurd hok (by simp)
          · exact absurd hok (by simp)
        · exact absurd hok (by simp)
      · exact absurd hok (by simp)
    · exact absurd hok (by simp)
  · intro s t hok r hr
    rw [relative_amplitude] at hok
    rcases hW : firstWatchID df with _ | w <;> rw [hW] at hok
    · exact absurd hok (by simp)
    · cases hok
      obtain ⟨d, _, rfl⟩ := List.mem_map.mp hr
      rfl
  · intro rf t hok r hr
    rw [total_values] at hok
    rcases hW : firstWatchID df with _ | w <;> rw [hW] at hok
    · exact absurd hok (by simp)
    · cases hok
      obtain ⟨d, _, rfl⟩ := List.mem_map.mp hr
      rfl

/-- Witness for C10 at a concrete input: the two-subject table is not
rejected — `total_values` succeeds on it — and its rows carry the first
subject's watch_ID (3), discarding the second subject's (9). -/
theorem C10_first_watch_id_stamped_witness :
    some (3 : Nat) = firstWatchID dfTwoSubjects :=
  (C10_first_watch_id_stamped dfTwoSubjects).2.2.2.2 5
    [{ split_Day := 1, activity := 5, light := 1, watch_ID := 3 },
     { split_Day := 2, activity := 10, light := 2, watch_ID := 3 }]
    (by decide)
    { split_Day := 1, activity := 5, light := 1, watch_ID := 3 }
    (by decide)

end Actiwatch
